import Mathlib

/-!
Shallow embedding of the label repository layer of `rust-web`
(`src/repositories/label.rs`): the entity and command types, the error
taxonomy, the durable (Postgres-backed) implementation
`LabelRepositoryForDb`, and the in-memory implementation
`LabelRepositoryForMemory`.

Modelling conventions:
* `i32` ids are modelled as `Int`; the one place where an integer cast can
  overflow (`(store.len() + 1) as i32` in the in-memory `create`) is modelled
  explicitly by `usizeAsI32`.
* Each SQL statement of the durable backend either hits a driver fault
  (connectivity loss, malformed row, ...) — modelled by an `Option String`
  argument carrying the driver's error message — or computes its result from
  the table state. `sqlx::Error::RowNotFound` is produced organically by
  `fetch_one` on an empty result set; `execute` and `fetch_all` never produce
  it.
* `anyhow::Result` at the repository boundary is modelled by
  `Except AnyhowError`: the `?` operator on an `sqlx` result wraps the raw
  driver error (`AnyhowError.sqlx`), while an explicit
  `RepositoryError::...into()` wraps a taxonomy error (`AnyhowError.repo`).
* The in-memory store is a `HashMap<i32, Label>`; it is modelled as an
  association list with unique keys, and the unspecified iteration order of
  `HashMap::values` is modelled by quantifying over permutations
  (`IterOrder`).
-/

/-- A stored label row: `Label { id: i32, name: String }`. -/
structure Label where
  id : Int
  name : String
deriving DecidableEq, Repr

/-- The create-command `CreateLabel { name: String }`; length validation is
applied by the handler layer before the command reaches the repository. -/
structure CreateLabel where
  name : String
deriving DecidableEq, Repr

/-- The partial-update command `UpdateLabel { name: Option<String> }`. -/
structure UpdateLabel where
  name : Option String
deriving DecidableEq, Repr

/-- Modelled from the spec: the error taxonomy `RepositoryError` is declared in
`src/repositories/mod.rs`, which is outside the examined sources; spec §4.1
fixes its three kinds, and all three constructors appear at use sites in
`label.rs` (`NotFound(id)`, `Duplicate(id)`, `Unexpected(msg)`). -/
inductive RepositoryError where
  | NotFound (id : Int)
  | Duplicate (id : Int)
  | Unexpected (msg : String)
deriving DecidableEq, Repr

/-- The relevant shapes of `sqlx::Error`: `RowNotFound` (no rows returned by a
query that expected at least one row, produced by `fetch_one`), and any other
driver error, identified by its message string. -/
inductive SqlxError where
  | rowNotFound
  | other (msg : String)
deriving DecidableEq, Repr

/-- An `anyhow::Error` crossing the repository boundary either wraps a
`RepositoryError` (inserted by an explicit `.into()` or `map_err`) or wraps a
raw `sqlx::Error` (inserted by the `?` operator with no `map_err`). -/
inductive AnyhowError where
  | repo (e : RepositoryError)
  | sqlx (e : SqlxError)
deriving DecidableEq, Repr

/-- State of the Postgres `labels(id, name)` table together with the serial
sequence backing the `id` column. Rows are kept in insertion order; `nextId` is
the next value of the serial sequence, so every stored id is below it. -/
structure DbState where
  rows : List Label
  nextId : Int
deriving DecidableEq, Repr

/-- Comparison used by `ORDER BY id ASC`. -/
def labelLe (a b : Label) : Prop := a.id ≤ b.id

instance : DecidableRel labelLe := fun a b => Int.decLe a.id b.id

instance : IsTotal Label labelLe := ⟨fun a b => Int.le_total a.id b.id⟩

instance : IsTrans Label labelLe := ⟨fun _ _ _ h1 h2 => le_trans h1 h2⟩

/-- `LabelRepositoryForDb::create`: probe `select id, name from labels where
name = $1` with `fetch_optional` (its driver error propagates raw through `?`);
on a hit, return `RepositoryError::Duplicate(existing.id)` without inserting;
otherwise `INSERT ... RETURNING *` (driver error again raw through `?`). -/
def dbCreate (payload : CreateLabel) (st : DbState) (fProbe fInsert : Option String) :
    Except AnyhowError Label × DbState :=
  match fProbe with
  | some msg => (Except.error (AnyhowError.sqlx (SqlxError.other msg)), st)
  | none =>
    match st.rows.find? (fun l => l.name = payload.name) with
    | some label => (Except.error (AnyhowError.repo (RepositoryError.Duplicate label.id)), st)
    | none =>
      match fInsert with
      | some msg => (Except.error (AnyhowError.sqlx (SqlxError.other msg)), st)
      | none =>
        let label : Label := ⟨st.nextId, payload.name⟩
        (Except.ok label, ⟨st.rows ++ [label], st.nextId + 1⟩)

/-- `LabelRepositoryForDb::find`: `SELECT ... WHERE labels.id=$1` with
`fetch_one`; `map_err` sends `RowNotFound` to `NotFound(id)` and any other
driver error to `Unexpected(msg)`. -/
def dbFind (id : Int) (st : DbState) (f : Option String) : Except AnyhowError Label :=
  match f with
  | some msg => Except.error (AnyhowError.repo (RepositoryError.Unexpected msg))
  | none =>
    match st.rows.find? (fun l => l.id = id) with
    | some label => Except.ok label
    | none => Except.error (AnyhowError.repo (RepositoryError.NotFound id))

/-- `LabelRepositoryForDb::find_by_user`: `SELECT ... WHERE labels.user_id=$1`
with `fetch_all`; `map_err` sends driver errors to the taxonomy (`fetch_all`
never produces `RowNotFound`, so that arm is dead and errors become
`Unexpected`). Modelled from the spec: the `user_id` column is referenced by
the query but not defined in the examined scope, so the ownership assignment is
an explicit parameter `owner` from label id to owning user id. -/
def dbFindByUser (userId : Int) (owner : Int → Option Int) (st : DbState) (f : Option String) :
    Except AnyhowError (List Label) :=
  match f with
  | some msg => Except.error (AnyhowError.repo (RepositoryError.Unexpected msg))
  | none => Except.ok (st.rows.filter (fun l => owner l.id = some userId))

/-- `LabelRepositoryForDb::all`: `SELECT id, name FROM labels ORDER BY id ASC`
with `fetch_all`; its driver error propagates raw through `?`. -/
def dbAll (st : DbState) (f : Option String) : Except AnyhowError (List Label) :=
  match f with
  | some msg => Except.error (AnyhowError.sqlx (SqlxError.other msg))
  | none => Except.ok (List.insertionSort labelLe st.rows)

/-- `LabelRepositoryForDb::update`: first `self.find(id)` (whose errors are
already taxonomy errors), then `UPDATE labels SET name=$1 WHERE id=$2
RETURNING *` with `fetch_one`, binding `payload.name.unwrap_or(old_label.name)`;
the update statement's driver error propagates raw through `?`. Since `find`
succeeded, the row exists and the statement returns the updated row. -/
def dbUpdate (id : Int) (payload : UpdateLabel) (st : DbState) (fFind fUpd : Option String) :
    Except AnyhowError Label × DbState :=
  match dbFind id st fFind with
  | Except.error e => (Except.error e, st)
  | Except.ok oldLabel =>
    match fUpd with
    | some msg => (Except.error (AnyhowError.sqlx (SqlxError.other msg)), st)
    | none =>
      let newName := payload.name.getD oldLabel.name
      (Except.ok ⟨id, newName⟩,
        ⟨st.rows.map (fun l => if l.id = id then ⟨id, newName⟩ else l), st.nextId⟩)

/-- `LabelRepositoryForDb::delete`: `DELETE FROM labels WHERE id = $1` with
`execute`; `map_err` maps driver errors to the taxonomy, but `execute` reports
only driver faults — a DELETE matching zero rows succeeds with
`rows_affected = 0`, so the `RowNotFound` arm is unreachable and the call
returns `Ok(())` whether or not the id exists. -/
def dbDelete (id : Int) (st : DbState) (f : Option String) :
    Except AnyhowError Unit × DbState :=
  match f with
  | some msg => (Except.error (AnyhowError.repo (RepositoryError.Unexpected msg)), st)
  | none => (Except.ok (), ⟨st.rows.filter (fun l => l.id ≠ id), st.nextId⟩)

/-! The in-memory backend. `type LabelDatas = HashMap<i32, Label>` is modelled
as an association list with unique keys; `hmGet`, `hmInsert`, `hmRemove` mirror
`HashMap::get`, `HashMap::insert` (replacing the value when the key is already
present) and `HashMap::remove`. -/

/-- The in-memory store contents: key-value pairs of a `HashMap<i32, Label>`. -/
abbrev LabelDatas := List (Int × Label)

/-- `HashMap::get(&k)`. -/
def hmGet (store : LabelDatas) (k : Int) : Option Label :=
  (store.find? (fun p => p.1 = k)).map (fun p => p.2)

/-- `HashMap::insert(k, v)`: replaces the value when `k` is already a key,
otherwise adds a new entry. -/
def hmInsert (store : LabelDatas) (k : Int) (v : Label) : LabelDatas :=
  if store.any (fun p => p.1 = k) then
    store.map (fun p => if p.1 = k then (k, v) else p)
  else
    store ++ [(k, v)]

/-- `HashMap::remove(&k)`. -/
def hmRemove (store : LabelDatas) (k : Int) : LabelDatas :=
  store.filter (fun p => p.1 ≠ k)

/-- The value of `n as i32` for a `usize` value `n`: take the low 32 bits and
reinterpret them as a signed two's-complement integer. -/
def usizeAsI32 (n : Nat) : Int :=
  if n % 2 ^ 32 < 2 ^ 31 then ((n % 2 ^ 32 : Nat) : Int)
  else ((n % 2 ^ 32 : Nat) : Int) - 2 ^ 32

/-- Iteration order of `HashMap::values` is unspecified: any permutation of the
stored entries is a possible iteration order. -/
def IterOrder (store : LabelDatas) (it : List (Int × Label)) : Prop :=
  it.Perm store

/-- `LabelRepositoryForMemory::create`: `id = (store.len() + 1) as i32`, build
`Label::new(id, payload.name)`, insert it, return it. No duplicate check. -/
def memCreate (payload : CreateLabel) (store : LabelDatas) :
    Except AnyhowError Label × LabelDatas :=
  let id := usizeAsI32 (store.length + 1)
  let label : Label := ⟨id, payload.name⟩
  (Except.ok label, hmInsert store id label)

/-- `LabelRepositoryForMemory::find`: `store.get(&id).ok_or(NotFound(id))`. -/
def memFind (id : Int) (store : LabelDatas) : Except AnyhowError Label :=
  match hmGet store id with
  | some label => Except.ok label
  | none => Except.error (AnyhowError.repo (RepositoryError.NotFound id))

/-- `LabelRepositoryForMemory::find_by_user`: collects `store.values()` while
ignoring `_user_id` (the filter on the owner is commented out in the source);
`it` is the iteration order taken by `values()`. -/
def memFindByUser (_userId : Int) (it : List (Int × Label)) :
    Except AnyhowError (List Label) :=
  Except.ok (it.map (fun p => p.2))

/-- `LabelRepositoryForMemory::all`: collects `store.values()` with no sorting;
`it` is the iteration order taken by `values()`. -/
def memAll (it : List (Int × Label)) : Except AnyhowError (List Label) :=
  Except.ok (it.map (fun p => p.2))

/-- `LabelRepositoryForMemory::update`: `store.get_mut(&id).ok_or(NotFound)`;
when `payload.name` is `Some(name)` overwrite the stored name, otherwise leave
the entry as it is; return a clone of the (possibly updated) entry. -/
def memUpdate (id : Int) (payload : UpdateLabel) (store : LabelDatas) :
    Except AnyhowError Label × LabelDatas :=
  match hmGet store id with
  | none => (Except.error (AnyhowError.repo (RepositoryError.NotFound id)), store)
  | some label =>
    let newLabel : Label :=
      match payload.name with
      | some n => ⟨label.id, n⟩
      | none => label
    (Except.ok newLabel, hmInsert store id newLabel)

/-- `LabelRepositoryForMemory::delete`: `store.remove(&id).ok_or(NotFound)`. -/
def memDelete (id : Int) (store : LabelDatas) :
    Except AnyhowError Unit × LabelDatas :=
  match hmGet store id with
  | none => (Except.error (AnyhowError.repo (RepositoryError.NotFound id)), store)
  | some _ => (Except.ok (), hmRemove store id)

/-- A repository result whose error is a raw storage (`sqlx`) error rather than
a taxonomy error. -/
def isRawStorage {α : Type} : Except AnyhowError α → Bool
  | Except.error (AnyhowError.sqlx _) => true
  | _ => false

/-- A repository result that is either a success or a taxonomy error — never a
raw storage error. -/
def taxonomyOnly {α : Type} : Except AnyhowError α → Bool
  | Except.error (AnyhowError.sqlx _) => false
  | _ => true

/-- C10: in the in-memory backend, after create("a"), create("b"), delete(1),
the store holds only the entry with key 2; the next create("c") is assigned
id `len + 1 = 2`, which is already a stored key, and the insert silently
replaces the previous entity with that id. -/
theorem c10_mem_create_reuses_id_and_overwrites :
    (memDelete 1 (memCreate ⟨"b"⟩ (memCreate ⟨"a"⟩ []).2).2).2 = [(2, ⟨2, "b"⟩)] ∧
    hmGet [(2, ⟨2, "b"⟩)] 2 = some ⟨2, "b"⟩ ∧
    (memCreate ⟨"c"⟩ [(2, ⟨2, "b"⟩)]).1 = Except.ok ⟨2, "c"⟩ ∧
    (memCreate ⟨"c"⟩ [(2, ⟨2, "b"⟩)]).2 = [(2, ⟨2, "c"⟩)] :=
  ⟨rfl, rfl, rfl, rfl⟩

/-- C3: evaluating the durable delete at the failing input: on an empty table,
`delete(1)` returns `Ok(())` and not `NotFound(1)`, because `execute` reports
only driver faults — a DELETE affecting zero rows is not an `sqlx` error, so
the `RowNotFound => NotFound(id)` arm of the `map_err` is unreachable. -/
theorem c3_db_delete_missing_id_returns_ok :
    dbDelete 1 ⟨[], 1⟩ none = (Except.ok (), ⟨[], 1⟩) := rfl

/-- C1 counterexample: when the uniqueness probe of the durable `create` fails
with a driver error (for instance connectivity loss), the `?` operator
propagates the raw `sqlx` error across the repository boundary — it is not
converted to the taxonomy. -/
theorem c1_counterexample_raw_error_crosses :
    isRawStorage (dbCreate ⟨"work"⟩ ⟨[], 1⟩ (some "connection reset") none).1 = true ∧
    (dbCreate ⟨"work"⟩ ⟨[], 1⟩ (some "connection reset") none).1 =
      Except.error (AnyhowError.sqlx (SqlxError.other "connection reset")) :=
  ⟨rfl, rfl⟩

/-- C4 counterexample: with a label named "work" already stored under id 1, the
in-memory `create` of another "work" label succeeds with a fresh id (it has no
uniqueness check), while the durable `create` fails with `Duplicate(1)`. -/
theorem c4_counterexample_mem_create_ignores_duplicate :
    (memCreate ⟨"work"⟩ [(1, ⟨1, "work"⟩)]).1 = Except.ok ⟨2, "work"⟩ ∧
    dbCreate ⟨"work"⟩ ⟨[⟨1, "work"⟩], 2⟩ none none =
      (Except.error (AnyhowError.repo (RepositoryError.Duplicate 1)), ⟨[⟨1, "work"⟩], 2⟩) :=
  ⟨rfl, rfl⟩

/-- C5 counterexample: the store reached by create("a") then create("b") holds
entries with keys 1 and 2; iterating them in the order 2, 1 is a legitimate
`HashMap` iteration order, and the in-memory `all()` then returns the labels in
an order that is not ascending by id. -/
theorem c5_counterexample_mem_all_unsorted :
    (memCreate ⟨"b"⟩ (memCreate ⟨"a"⟩ []).2).2 = [(1, ⟨1, "a"⟩), (2, ⟨2, "b"⟩)] ∧
    IterOrder [(1, ⟨1, "a"⟩), (2, ⟨2, "b"⟩)] [(2, ⟨2, "b"⟩), (1, ⟨1, "a"⟩)] ∧
    memAll [(2, ⟨2, "b"⟩), (1, ⟨1, "a"⟩)] = Except.ok [⟨2, "b"⟩, ⟨1, "a"⟩] ∧
    ¬ List.Sorted labelLe [⟨2, "b"⟩, ⟨1, "a"⟩] :=
  ⟨rfl, by exact List.Perm.swap _ _ _, rfl, by decide⟩

/-- Below the signed 32-bit bound the cast is the identity. -/
theorem usizeAsI32_eq_of_lt {n : Nat} (h : n < 2 ^ 31) : usizeAsI32 n = (n : Int) := by
  have h32 : n % 2 ^ 32 = n := Nat.mod_eq_of_lt (lt_trans h (by norm_num))
  unfold usizeAsI32
  rw [h32]
  have h31 : n < 2147483648 := by omega
  simp [h31]

/-- C8 counterexample: on a store holding `2 ^ 31 - 1` entries, the in-memory
`create` computes `(store.len() + 1) as i32`; the cast wraps `2 ^ 31` to
`-(2 ^ 31)`, so the assigned id is negative and not the stored count plus
one. -/
theorem c8_counterexample_cast_wraps :
    (memCreate ⟨"big"⟩ (List.replicate (2 ^ 31 - 1) ((0 : Int), (⟨0, "x"⟩ : Label)))).1 =
      Except.ok ⟨-(2 ^ 31), "big"⟩ ∧
    -(2 ^ 31 : Int) ≠
      (((List.replicate (2 ^ 31 - 1) ((0 : Int), (⟨0, "x"⟩ : Label))).length : Int) + 1) := by
  have hfst : ∀ (p : CreateLabel) (store : LabelDatas),
      (memCreate p store).1 = Except.ok ⟨usizeAsI32 (store.length + 1), p.name⟩ :=
    fun _ _ => rfl
  have hlen : (List.replicate (2 ^ 31 - 1) ((0 : Int), (⟨0, "x"⟩ : Label))).length =
      2 ^ 31 - 1 := List.length_replicate _ _
  have hcast : usizeAsI32 (2 ^ 31 - 1 + 1) = -(2 ^ 31) := by
    unfold usizeAsI32
    norm_num
  constructor
  · rw [hfst, hlen, hcast]
  · rw [hlen]
    norm_num

/-- C8 amended: the in-memory `create` assigns `id = (store.len() + 1) as i32`;
as long as the cast cannot overflow (stored count plus one below `2 ^ 31`), the
new id equals the stored count plus one, and the call always succeeds. -/
theorem c8_mem_create_id_eq_count_succ (p : CreateLabel) (store : LabelDatas)
    (h : store.length + 1 < 2 ^ 31) :
    (memCreate p store).1 = Except.ok ⟨(store.length : Int) + 1, p.name⟩ := by
  have hid : usizeAsI32 (store.length + 1) = (store.length : Int) + 1 := by
    rw [usizeAsI32_eq_of_lt h]
    push_cast
    ring
  simp [memCreate, hid]

/-- C8 witness: on the empty store, create yields id `0 + 1 = 1`. -/
theorem c8_witness :
    (memCreate ⟨"work"⟩ []).1 = Except.ok ⟨(([] : LabelDatas).length : Int) + 1, "work"⟩ :=
  c8_mem_create_id_eq_count_succ ⟨"work"⟩ [] (by norm_num)

/-- C9: the in-memory `find_by_user` ignores the supplied user id: for any two
user ids and the same store and iteration order it returns the same value, it
always succeeds with the full list of stored labels (a permutation of the
stored values), and on the empty store it returns the empty sequence. -/
theorem c9_mem_find_by_user_ignores_user (u1 u2 : Int) (store : LabelDatas)
    (it : List (Int × Label)) (h : IterOrder store it) :
    memFindByUser u1 it = memFindByUser u2 it ∧
    memFindByUser u1 it = Except.ok (it.map (fun p => p.2)) ∧
    (it.map (fun p => p.2)).Perm (store.map (fun p => p.2)) ∧
    (store = [] → memFindByUser u1 it = Except.ok []) := by
  refine ⟨rfl, rfl, List.Perm.map _ h, ?_⟩
  rintro rfl
  have hnil : it = [] := List.Perm.eq_nil h
  simp [hnil, memFindByUser]

/-- C9 witness: instantiated on the empty store with its only iteration
order. -/
theorem c9_witness :
    memFindByUser 1 ([] : List (Int × Label)) = memFindByUser 2 [] ∧
    memFindByUser 1 ([] : List (Int × Label)) =
      Except.ok (([] : List (Int × Label)).map (fun p => p.2)) ∧
    (([] : List (Int × Label)).map (fun p => p.2)).Perm
      (([] : LabelDatas).map (fun p => p.2)) ∧
    (([] : LabelDatas) = [] → memFindByUser 1 ([] : List (Int × Label)) = Except.ok []) :=
  c9_mem_find_by_user_ignores_user 1 2 [] [] (List.Perm.refl [])

/-- C2: the durable `create` probes the table for the requested name before any
insertion: when a label with that name exists, the call fails with
`Duplicate(existing.id)` and the table is unchanged; consequently, two creates
with the same name on a table not containing that name make the second call
fail with `Duplicate` carrying the id assigned by the first call. -/
theorem c2_db_create_checks_duplicate_before_insert :
    (∀ (st : DbState) (l : Label) (n : String),
        st.rows.find? (fun x => x.name = n) = some l →
        dbCreate ⟨n⟩ st none none =
          (Except.error (AnyhowError.repo (RepositoryError.Duplicate l.id)), st)) ∧
    (∀ (st : DbState) (n : String),
        (∀ l ∈ st.rows, l.name ≠ n) →
        (dbCreate ⟨n⟩ st none none).1 = Except.ok ⟨st.nextId, n⟩ ∧
        dbCreate ⟨n⟩ (dbCreate ⟨n⟩ st none none).2 none none =
          (Except.error (AnyhowError.repo (RepositoryError.Duplicate st.nextId)),
            (dbCreate ⟨n⟩ st none none).2)) := by
  constructor
  · intro st l n h
    simp [dbCreate, h]
  · intro st n hfresh
    have hnone : st.rows.find? (fun x => x.name = n) = none := by
      rw [List.find?_eq_none]
      intro x hx
      simpa using hfresh x hx
    have hfst : dbCreate ⟨n⟩ st none none =
        (Except.ok ⟨st.nextId, n⟩, ⟨st.rows ++ [⟨st.nextId, n⟩], st.nextId + 1⟩) := by
      simp [dbCreate, hnone]
    refine ⟨by rw [hfst], ?_⟩
    rw [hfst]
    simp [dbCreate, List.find?_append, hnone]

/-- C2 witness: on the empty table, create("work") yields id 1 and a second
create("work") yields `Duplicate(1)`. -/
theorem c2_witness :
    (dbCreate ⟨"work"⟩ ⟨[], 1⟩ none none).1 = Except.ok ⟨1, "work"⟩ ∧
    dbCreate ⟨"work"⟩ (dbCreate ⟨"work"⟩ ⟨[], 1⟩ none none).2 none none =
      (Except.error (AnyhowError.repo (RepositoryError.Duplicate 1)),
        (dbCreate ⟨"work"⟩ ⟨[], 1⟩ none none).2) :=
  c2_db_create_checks_duplicate_before_insert.2 ⟨[], 1⟩ "work" (by simp)

/-- C5 amended: the durable `all()` returns the rows sorted ascending by id
(`ORDER BY id ASC`); the in-memory `all()` returns the stored labels in the
unspecified `HashMap` iteration order — always a permutation of the stored
values, with no ordering guarantee. -/
theorem c5_amended_db_all_sorted_mem_all_perm :
    (∀ (st : DbState) (l : List Label),
        dbAll st none = Except.ok l → List.Sorted labelLe l) ∧
    (∀ (store : LabelDatas) (it : List (Int × Label)), IterOrder store it →
        memAll it = Except.ok (it.map (fun p => p.2)) ∧
        (it.map (fun p => p.2)).Perm (store.map (fun p => p.2))) := by
  constructor
  · intro st l h
    have hl : List.insertionSort labelLe st.rows = l := by
      simpa [dbAll] using h
    rw [← hl]
    exact List.sorted_insertionSort labelLe st.rows
  · intro store it h
    exact ⟨rfl, List.Perm.map _ h⟩

/-- C5 amended witness: a two-row table is returned sorted, and a singleton
in-memory store is returned as a permutation of itself. -/
theorem c5_witness :
    List.Sorted labelLe [Label.mk 1 "a", Label.mk 2 "b"] ∧
    (memAll [(1, Label.mk 1 "a")] =
        Except.ok ([((1 : Int), Label.mk 1 "a")].map (fun p => p.2)) ∧
      ([((1 : Int), Label.mk 1 "a")].map (fun p => p.2)).Perm
        (([((1 : Int), Label.mk 1 "a")] : LabelDatas).map (fun p => p.2))) :=
  ⟨c5_amended_db_all_sorted_mem_all_perm.1 ⟨[⟨2, "b"⟩, ⟨1, "a"⟩], 3⟩ [⟨1, "a"⟩, ⟨2, "b"⟩] rfl,
   c5_amended_db_all_sorted_mem_all_perm.2 [(1, ⟨1, "a"⟩)] [(1, ⟨1, "a"⟩)] (List.Perm.refl _)⟩

/-- Replacing the value stored under a present key makes `find?` on that key
return the new entry. -/
theorem find?_map_replace (xs : LabelDatas) (k : Int) (v : Label)
    (h : xs.any (fun p => p.1 = k) = true) :
    (xs.map (fun p => if p.1 = k then (k, v) else p)).find? (fun p => p.1 = k) =
      some (k, v) := by
  induction xs with
  | nil => simp at h
  | cons x xs ih =>
    by_cases hx : x.1 = k
    · simp [List.find?_cons, hx]
    · have h2 : xs.any (fun p => p.1 = k) = true := by
        simpa [List.any_cons, hx] using h
      simpa [List.find?_cons, hx] using ih h2

/-- `HashMap::get` after `HashMap::insert` on the same key returns the inserted
value. -/
theorem hmGet_hmInsert (store : LabelDatas) (k : Int) (v : Label) :
    hmGet (hmInsert store k v) k = some v := by
  unfold hmGet hmInsert
  by_cases hmem : store.any (fun p => p.1 = k)
  · rw [if_pos hmem, find?_map_replace store k v hmem]
    rfl
  · rw [if_neg hmem, List.find?_append]
    have hnone : store.find? (fun p => p.1 = k) = none := by
      rw [List.find?_eq_none]
      intro x hx hpx
      exact hmem (List.any_eq_true.mpr ⟨x, hx, hpx⟩)
    simp [hnone, List.find?]

/-- C6: a successful `create` immediately followed by `find` on the returned id
yields the created entity, on both backends. For the durable backend the table
must satisfy the serial-sequence invariant (all stored ids are below `nextId`)
and contain no label with the requested name (the states in which `create`
succeeds); the in-memory `create` always succeeds. -/
theorem c6_create_then_find_roundtrip :
    (∀ (p : CreateLabel) (st : DbState),
        (∀ l ∈ st.rows, l.id < st.nextId) →
        (∀ l ∈ st.rows, l.name ≠ p.name) →
        (dbCreate p st none none).1 = Except.ok ⟨st.nextId, p.name⟩ ∧
        dbFind st.nextId (dbCreate p st none none).2 none = Except.ok ⟨st.nextId, p.name⟩) ∧
    (∀ (p : CreateLabel) (store : LabelDatas),
        (memCreate p store).1 = Except.ok ⟨usizeAsI32 (store.length + 1), p.name⟩ ∧
        memFind (usizeAsI32 (store.length + 1)) (memCreate p store).2 =
          Except.ok ⟨usizeAsI32 (store.length + 1), p.name⟩) := by
  constructor
  · intro p st hid hfresh
    have hnone : st.rows.find? (fun x => x.name = p.name) = none := by
      rw [List.find?_eq_none]
      intro x hx
      simpa using hfresh x hx
    have hcreate : dbCreate p st none none =
        (Except.ok ⟨st.nextId, p.name⟩,
          ⟨st.rows ++ [⟨st.nextId, p.name⟩], st.nextId + 1⟩) := by
      simp [dbCreate, hnone]
    have hfnone : st.rows.find? (fun x => x.id = st.nextId) = none := by
      rw [List.find?_eq_none]
      intro x hx
      have := hid x hx
      simp
      omega
    refine ⟨by rw [hcreate], ?_⟩
    rw [hcreate]
    simp [dbFind, List.find?_append, hfnone, List.find?]
  · intro p store
    exact ⟨rfl, by simp [memCreate, memFind, hmGet_hmInsert]⟩

/-- C6 witness: round trip on the empty table and the empty store. -/
theorem c6_witness :
    ((dbCreate ⟨"work"⟩ ⟨[], 1⟩ none none).1 = Except.ok ⟨1, "work"⟩ ∧
      dbFind 1 (dbCreate ⟨"work"⟩ ⟨[], 1⟩ none none).2 none = Except.ok ⟨1, "work"⟩) ∧
    ((memCreate ⟨"work"⟩ []).1 = Except.ok ⟨usizeAsI32 1, "work"⟩ ∧
      memFind (usizeAsI32 1) (memCreate ⟨"work"⟩ []).2 =
        Except.ok ⟨usizeAsI32 1, "work"⟩) :=
  ⟨c6_create_then_find_roundtrip.1 ⟨"work"⟩ ⟨[], 1⟩ (by simp) (by simp),
   c6_create_then_find_roundtrip.2 ⟨"work"⟩ []⟩

/-- C7: `update` with an empty partial command (`name = None`) returns the
entity with its previous field values and leaves the store unchanged, on both
backends; the store is assumed to satisfy the key-uniqueness invariant
(primary-key ids in the table, unique keys in the hash map). -/
theorem c7_update_empty_command_is_frame :
    (∀ (id : Int) (st : DbState) (l : Label),
        (st.rows.map (fun x => x.id)).Nodup →
        st.rows.find? (fun x => x.id = id) = some l →
        dbUpdate id ⟨none⟩ st none none = (Except.ok l, st)) ∧
    (∀ (id : Int) (store : LabelDatas) (l : Label),
        (store.map (fun p => p.1)).Nodup →
        hmGet store id = some l →
        memUpdate id ⟨none⟩ store = (Except.ok l, store)) := by
  constructor
  · intro id st l hnd hfind
    have hlid : l.id = id := by simpa using List.find?_some hfind
    have hlmem : l ∈ st.rows := List.mem_of_find?_eq_some hfind
    have hdbfind : dbFind id st none = Except.ok l := by simp [dbFind, hfind]
    have hl : (⟨id, l.name⟩ : Label) = l := by rw [← hlid]
    have hpt : ∀ x ∈ st.rows, (if x.id = id then l else x) = x := by
      intro x hx
      by_cases hxid : x.id = id
      · rw [if_pos hxid]
        exact (List.inj_on_of_nodup_map hnd hx hlmem (by rw [hxid, hlid])).symm
      · rw [if_neg hxid]
    have hrows : st.rows.map (fun x => if x.id = id then l else x) = st.rows := by
      rw [List.map_congr_left hpt]
      simp
    simp [dbUpdate, hdbfind, hl, hrows]
  · intro id store l hnd hget
    obtain ⟨q, hq, hq2⟩ : ∃ q, store.find? (fun p => p.1 = id) = some q ∧ q.2 = l := by
      unfold hmGet at hget
      cases hfq : store.find? (fun p => p.1 = id) with
      | none => rw [hfq] at hget; simp at hget
      | some q =>
        rw [hfq] at hget
        simp at hget
        exact ⟨q, rfl, hget⟩
    have hq1 : q.1 = id := by simpa using List.find?_some hq
    have hqmem : q ∈ store := List.mem_of_find?_eq_some hq
    have hany : store.any (fun p => p.1 = id) = true :=
      List.any_eq_true.mpr ⟨q, hqmem, by simpa using hq1⟩
    have hpt : ∀ p ∈ store, (if p.1 = id then ((id, l) : Int × Label) else p) = p := by
      intro p hp
      by_cases hpid : p.1 = id
      · have hpq : p = q :=
          List.inj_on_of_nodup_map hnd hp hqmem (by rw [hpid, hq1])
        rw [if_pos hpid]
        rw [hpq]
        rw [Prod.ext_iff]
        exact ⟨hq1.symm, hq2.symm⟩
      · rw [if_neg hpid]
    have hins : hmInsert store id l = store := by
      unfold hmInsert
      rw [if_pos hany, List.map_congr_left hpt]
      simp
    simp [memUpdate, hget, hins]

/-- C7 witness: updating the singleton stores with an empty command. -/
theorem c7_witness :
    dbUpdate 1 ⟨none⟩ ⟨[⟨1, "work"⟩], 2⟩ none none =
      (Except.ok ⟨1, "work"⟩, ⟨[⟨1, "work"⟩], 2⟩) ∧
    memUpdate 1 ⟨none⟩ [(1, ⟨1, "work"⟩)] =
      (Except.ok ⟨1, "work"⟩, [(1, ⟨1, "work"⟩)]) :=
  ⟨c7_update_empty_command_is_frame.1 1 ⟨[⟨1, "work"⟩], 2⟩ ⟨1, "work"⟩ (by simp) rfl,
   c7_update_empty_command_is_frame.2 1 [(1, ⟨1, "work"⟩)] ⟨1, "work"⟩ (by simp) rfl⟩

/-- C4 amended: the in-memory backend matches the durable backend's `NotFound`
behaviour for `find` and `update` on a missing id, but its `create` performs no
name-uniqueness check (it always succeeds with a freshly computed id, even for
a duplicate name), and its `delete` of a missing id yields `NotFound` where the
durable `delete` succeeds. -/
theorem c4_amended_partial_contract_match :
    (∀ (id : Int) (store : LabelDatas) (st : DbState) (p : UpdateLabel),
        hmGet store id = none →
        st.rows.find? (fun l => l.id = id) = none →
        memFind id store = Except.error (AnyhowError.repo (RepositoryError.NotFound id)) ∧
        dbFind id st none = Except.error (AnyhowError.repo (RepositoryError.NotFound id)) ∧
        (memUpdate id p store).1 =
          Except.error (AnyhowError.repo (RepositoryError.NotFound id)) ∧
        (dbUpdate id p st none none).1 =
          Except.error (AnyhowError.repo (RepositoryError.NotFound id)) ∧
        (memDelete id store).1 =
          Except.error (AnyhowError.repo (RepositoryError.NotFound id)) ∧
        (dbDelete id st none).1 = Except.ok ()) ∧
    (∀ (p : CreateLabel) (store : LabelDatas),
        (memCreate p store).1 = Except.ok ⟨usizeAsI32 (store.length + 1), p.name⟩) := by
  constructor
  · intro id store st p hget hfind
    refine ⟨?_, ?_, ?_, ?_, ?_, rfl⟩
    · simp [memFind, hget]
    · simp [dbFind, hfind]
    · simp [memUpdate, hget]
    · simp [dbUpdate, dbFind, hfind]
    · simp [memDelete, hget]
  · intro p store
    rfl

/-- C4 amended witness: instantiated at id 1 on the empty store and table, and
a create on the empty store. -/
theorem c4_witness :
    (memFind 1 [] = Except.error (AnyhowError.repo (RepositoryError.NotFound 1)) ∧
      dbFind 1 ⟨[], 1⟩ none = Except.error (AnyhowError.repo (RepositoryError.NotFound 1)) ∧
      (memUpdate 1 ⟨none⟩ []).1 =
        Except.error (AnyhowError.repo (RepositoryError.NotFound 1)) ∧
      (dbUpdate 1 ⟨none⟩ ⟨[], 1⟩ none none).1 =
        Except.error (AnyhowError.repo (RepositoryError.NotFound 1)) ∧
      (memDelete 1 []).1 = Except.error (AnyhowError.repo (RepositoryError.NotFound 1)) ∧
      (dbDelete 1 ⟨[], 1⟩ none).1 = Except.ok ()) ∧
    (memCreate ⟨"work"⟩ []).1 = Except.ok ⟨usizeAsI32 1, "work"⟩ :=
  ⟨c4_amended_partial_contract_match.1 1 [] ⟨[], 1⟩ ⟨none⟩ rfl rfl,
   c4_amended_partial_contract_match.2 ⟨"work"⟩ []⟩

/-- C1 amended: every repository operation on either backend either succeeds
with a value or fails with a single error value; the durable `find`,
`find_by_user` and `delete` and every in-memory operation fail only with
taxonomy errors, while the durable `create`, `update` and `all` propagate the
raw storage error through `?` when one of their unmapped statements fails. -/
theorem c1_amended_error_boundary :
    (∀ (id : Int) (st : DbState) (f : Option String),
        taxonomyOnly (dbFind id st f) = true) ∧
    (∀ (u : Int) (owner : Int → Option Int) (st : DbState) (f : Option String),
        taxonomyOnly (dbFindByUser u owner st f) = true) ∧
    (∀ (id : Int) (st : DbState) (f : Option String),
        taxonomyOnly (dbDelete id st f).1 = true) ∧
    (∀ (p : CreateLabel) (store : LabelDatas), taxonomyOnly (memCreate p store).1 = true) ∧
    (∀ (id : Int) (store : LabelDatas), taxonomyOnly (memFind id store) = true) ∧
    (∀ (u : Int) (it : List (Int × Label)), taxonomyOnly (memFindByUser u it) = true) ∧
    (∀ (it : List (Int × Label)), taxonomyOnly (memAll it) = true) ∧
    (∀ (id : Int) (p : UpdateLabel) (store : LabelDatas),
        taxonomyOnly (memUpdate id p store).1 = true) ∧
    (∀ (id : Int) (store : LabelDatas), taxonomyOnly (memDelete id store).1 = true) ∧
    (∀ (p : CreateLabel) (st : DbState) (msg : String) (f2 : Option String),
        isRawStorage (dbCreate p st (some msg) f2).1 = true) ∧
    (∀ (st : DbState) (msg : String), isRawStorage (dbAll st (some msg)) = true) ∧
    (∀ (id : Int) (nm : String) (rest : List Label) (nid : Int) (p : UpdateLabel)
        (msg : String),
        isRawStorage (dbUpdate id p ⟨⟨id, nm⟩ :: rest, nid⟩ none (some msg)).1 = true) := by
  refine ⟨?_, ?_, ?_, ?_, ?_, ?_, ?_, ?_, ?_, ?_, ?_, ?_⟩
  · intro id st f
    cases f with
    | some msg => rfl
    | none => cases h : st.rows.find? (fun l => l.id = id) <;> simp [dbFind, h, taxonomyOnly]
  · intro u owner st f
    cases f <;> rfl
  · intro id st f
    cases f <;> rfl
  · intro p store
    rfl
  · intro id store
    cases h : hmGet store id <;> simp [memFind, h, taxonomyOnly]
  · intro u it
    rfl
  · intro it
    rfl
  · intro id p store
    cases h : hmGet store id <;> simp [memUpdate, h, taxonomyOnly]
  · intro id store
    cases h : hmGet store id <;> simp [memDelete, h, taxonomyOnly]
  · intro p st msg f2
    rfl
  · intro st msg
    rfl
  · intro id nm rest nid p msg
    have hfind : dbFind id ⟨⟨id, nm⟩ :: rest, nid⟩ none = Except.ok ⟨id, nm⟩ := by
      simp [dbFind, List.find?_cons_of_pos]
    simp [dbUpdate, hfind, isRawStorage]
